import Mathlib

/-!
Verification of the `play-with-csv` ledger reconciliation engine.

The Rust sources (`src/models.rs`, `src/processor.rs`, `src/ledger.rs`) are
embedded shallowly below:

* `rust_decimal::Decimal` values are modelled exactly: the crate stores a
  96-bit mantissa with a scale of at most 28, so every representable value is
  an integer multiple of `10^-28`; we represent the value `v` by the integer
  `v * 10^28` (a plain `Int`), which makes all sums and differences
  exact.  `checked_add` / `checked_sub` fail exactly when the magnitude of
  the exact result exceeds `Decimal::MAX = 2^96 - 1`; rounding that the
  crate may perform inside the representable range when precision is
  exhausted is not modelled (it is irrelevant at the four-decimal scale
  exercised by this program).
* `&mut self` methods become functions `ClientBalance → ... → ClientBalance ×
  Option LedgerError`; the returned balance reflects every field write the
  Rust method performed before returning, including writes that happened
  before a subsequent failure (`self.available = ...` followed by a failing
  checked operation).
* `HashMap<u16, ClientBalance>` becomes an association list (the entry API modify-or-insert), `HashMap<u32, Transaction>` a function `Nat → Option
  Transaction`; `u16`/`u32` ids become `Nat` (their bounds play no role in the
  properties below).
* The error type mirrors `LedgerError` from `src/errors.rs`, plus a
  `ParseError` constructor standing for the `rust_decimal` parse error that the
  Rust code propagates through `anyhow`.
-/

namespace PlayCsv

/-! ## Model of `rust_decimal::Decimal` -/

/-- The integer representing the decimal value `1` (one whole unit). -/
def decUnit : Int := 10 ^ 28

/-- Largest representable magnitude of `rust_decimal::Decimal`
(`Decimal::MAX = 2^96 - 1`, a 96-bit unsigned mantissa at scale 0),
in `10^-28` units. -/
def decMax : Int := (2 ^ 96 - 1) * decUnit

/-- `Decimal::checked_add`: the exact sum, unless its magnitude overflows. -/
def checked_add (a b : Int) : Option Int :=
  if -decMax ≤ a + b ∧ a + b ≤ decMax then some (a + b) else none

/-- `Decimal::checked_sub`: the exact difference, unless its magnitude
overflows.  Going negative is not a failure at this layer. -/
def checked_sub (a b : Int) : Option Int :=
  if -decMax ≤ a - b ∧ a - b ≤ decMax then some (a - b) else none

/-- Digit scanner backing `parseDecimal`: consumes the remaining characters,
accumulating the integer value of the digits seen (`acc`) and the number of
digits after the decimal point (`scale`); fails on a second point or on any
non-digit character, and demands at least one digit overall. -/
def parseDigits : List Char → Nat → Nat → Bool → Bool → Option (Nat × Nat)
  | [], acc, scale, _, seenDigit => if seenDigit then some (acc, scale) else none
  | c :: rest, acc, scale, seenDot, seenDigit =>
    if c = '.' then
      if seenDot then none else parseDigits rest acc scale true seenDigit
    else if c.isDigit then
      parseDigits rest (10 * acc + (c.toNat - 48))
        (if seenDot then scale + 1 else scale) seenDot true
    else none

/-- Model of `str::parse::<Decimal>` (the `FromStr` of `rust_decimal`) on the forms
this program feeds it: an optional sign, digits with at most one decimal
point; the value must fit a 96-bit mantissa with scale at most 28.  The
parsed value `±(n / 10^scale)` is returned in `10^-28` units, i.e. as
`±(n * 10^(28 - scale))`. -/
def parseDecimal (s : String) : Option Int :=
  match s.toList with
  | '-' :: rest =>
    match parseDigits rest 0 0 false false with
    | none => none
    | some (n, scale) =>
      if scale ≤ 28 ∧ n < 2 ^ 96 then some (-((n : Int) * 10 ^ (28 - scale))) else none
  | '+' :: rest =>
    match parseDigits rest 0 0 false false with
    | none => none
    | some (n, scale) =>
      if scale ≤ 28 ∧ n < 2 ^ 96 then some ((n : Int) * 10 ^ (28 - scale)) else none
  | cs =>
    match parseDigits cs 0 0 false false with
    | none => none
    | some (n, scale) =>
      if scale ≤ 28 ∧ n < 2 ^ 96 then some ((n : Int) * 10 ^ (28 - scale)) else none

/-! ## Errors (`src/errors.rs`) -/

/-- `LedgerError` from `src/errors.rs`.  `ParseError` stands for the
`rust_decimal::Error` a failing `amount.parse::<Decimal>()` produces; the Rust
code carries it through `anyhow::Result` alongside the `LedgerError` variants. -/
inductive LedgerError where
  | InsufficientFunds (amount balance : Int)
  | AccountLocked (client : Nat)
  | TxNotFound (id : Nat)
  | TxDuplicated (id : Nat)
  | ValueOverflow
  | ParseError
deriving DecidableEq

/-! ## `ClientBalance` (`src/models.rs`) -/

structure ClientBalance where
  client : Nat
  available : Int
  held : Int
  total : Int
  locked : Bool
deriving DecidableEq

/-- `ClientBalance::new`. -/
def ClientBalance.new (client : Nat) : ClientBalance :=
  { client := client, available := 0, held := 0, total := 0, locked := false }

/-- `ClientBalance::validate_is_unlocked`. -/
def ClientBalance.validate_is_unlocked (b : ClientBalance) : Option LedgerError :=
  if b.locked then some (.AccountLocked b.client) else none

/-- `ClientBalance::deposit`.  The Rust method assigns `self.available` before
computing the new total, so an overflow of the second addition leaves the
first write in place. -/
def ClientBalance.deposit (b : ClientBalance) (amount : String) :
    ClientBalance × Option LedgerError :=
  match b.validate_is_unlocked with
  | some e => (b, some e)
  | none =>
    match parseDecimal amount with
    | none => (b, some .ParseError)
    | some a =>
      match checked_add b.available a with
      | none => (b, some .ValueOverflow)
      | some av =>
        match checked_add b.total a with
        | none => ({ b with available := av }, some .ValueOverflow)
        | some t => ({ b with available := av, total := t }, none)

/-- `ClientBalance::withdraw`: computes both new values and checks both signs
before writing any field. -/
def ClientBalance.withdraw (b : ClientBalance) (amount : String) :
    ClientBalance × Option LedgerError :=
  match b.validate_is_unlocked with
  | some e => (b, some e)
  | none =>
    match parseDecimal amount with
    | none => (b, some .ParseError)
    | some a =>
      match checked_sub b.available a with
      | none => (b, some (.InsufficientFunds a b.available))
      | some av =>
        match checked_sub b.total a with
        | none => (b, some (.InsufficientFunds a b.total))
        | some t =>
          if t < 0 then (b, some (.InsufficientFunds a t))
          else if av < 0 then (b, some (.InsufficientFunds a av))
          else ({ b with available := av, total := t }, none)

/-- `ClientBalance::dispute`.  The Rust method assigns `self.available` before
the held addition, so an overflow there leaves the available write in place. -/
def ClientBalance.dispute (b : ClientBalance) (amount : String) :
    ClientBalance × Option LedgerError :=
  match b.validate_is_unlocked with
  | some e => (b, some e)
  | none =>
    match parseDecimal amount with
    | none => (b, some .ParseError)
    | some a =>
      match checked_sub b.available a with
      | none => (b, some (.InsufficientFunds a b.available))
      | some av =>
        if av < 0 then (b, some (.InsufficientFunds a av))
        else
          match checked_add b.held a with
          | none => ({ b with available := av }, some .ValueOverflow)
          | some h => ({ b with available := av, held := h }, none)

/-- `ClientBalance::resolve`.  The Rust method assigns `self.held` before the
available addition, so an overflow there leaves the held write in place. -/
def ClientBalance.resolve (b : ClientBalance) (amount : String) :
    ClientBalance × Option LedgerError :=
  match b.validate_is_unlocked with
  | some e => (b, some e)
  | none =>
    match parseDecimal amount with
    | none => (b, some .ParseError)
    | some a =>
      match checked_sub b.held a with
      | none => (b, some (.InsufficientFunds a b.held))
      | some h =>
        if h < 0 then (b, some (.InsufficientFunds a b.held))
        else
          match checked_add b.available a with
          | none => ({ b with held := h }, some .ValueOverflow)
          | some av => ({ b with held := h, available := av }, none)

/-- `ClientBalance::chargeback`: computes both new values and checks both
signs before writing; on success also sets `locked`. -/
def ClientBalance.chargeback (b : ClientBalance) (amount : String) :
    ClientBalance × Option LedgerError :=
  match b.validate_is_unlocked with
  | some e => (b, some e)
  | none =>
    match parseDecimal amount with
    | none => (b, some .ParseError)
    | some a =>
      match checked_sub b.held a with
      | none => (b, some (.InsufficientFunds a b.held))
      | some h =>
        match checked_sub b.total a with
        | none => (b, some (.InsufficientFunds a b.total))
        | some t =>
          if h < 0 then (b, some (.InsufficientFunds a b.held))
          else if t < 0 then (b, some (.InsufficientFunds a b.total))
          else ({ b with held := h, total := t, locked := true }, none)

/-- The five balance-mutating operations of `ClientBalance`, as a syntax for
stating properties over arbitrary call sequences. -/
inductive BalanceOp where
  | deposit (amount : String)
  | withdraw (amount : String)
  | dispute (amount : String)
  | resolve (amount : String)
  | chargeback (amount : String)

/-- Dispatch a `BalanceOp` to the corresponding `ClientBalance` method. -/
def ClientBalance.applyOp (b : ClientBalance) : BalanceOp → ClientBalance × Option LedgerError
  | .deposit a => b.deposit a
  | .withdraw a => b.withdraw a
  | .dispute a => b.dispute a
  | .resolve a => b.resolve a
  | .chargeback a => b.chargeback a

/-- The amount string carried by a `BalanceOp`. -/
def BalanceOp.amount : BalanceOp → String
  | .deposit a => a
  | .withdraw a => a
  | .dispute a => a
  | .resolve a => a
  | .chargeback a => a

/-- Run a sequence of balance operations, succeeding only if every single
operation succeeds. -/
def runOps (b : ClientBalance) : List BalanceOp → Option ClientBalance
  | [] => some b
  | op :: rest =>
    match b.applyOp op with
    | (b', none) => runOps b' rest
    | (_, some _) => none

/-! ## Transactions (`src/models.rs`) -/

inductive TransactionType where
  | Deposit
  | Withdrawal
  | Dispute
  | Resolve
  | Chargeback
deriving DecidableEq

structure Transaction where
  tx : Nat
  client : Nat
  amount : String
  type_ : TransactionType
deriving DecidableEq

/-- The dispute-family transaction types (those that reference a prior
transaction by id instead of carrying their own amount). -/
def TransactionType.isDisputeFamily : TransactionType → Bool
  | .Dispute => true
  | .Resolve => true
  | .Chargeback => true
  | .Deposit => false
  | .Withdrawal => false

/-! ## The accountant (`src/processor.rs`) -/

/-- The state of `Accountant`: `clients` is the `HashMap<u16, ClientBalance>`
(modelled as an association list to keep its entries enumerable for export),
`transactions` the `HashMap<u32, Transaction>` history, and the two vectors
are kept as lists. -/
structure Accountant where
  clients : List (Nat × ClientBalance)
  transactions : Nat → Option Transaction
  transaction_in_historical : List Nat
  transactions_rejected : List Nat

/-- `Accountant::new`. -/
def Accountant.new : Accountant :=
  { clients := [], transactions := fun _ => none,
    transaction_in_historical := [], transactions_rejected := [] }

/-- Lookup in the `clients` map. -/
def lookupClient : List (Nat × ClientBalance) → Nat → Option ClientBalance
  | [], _ => none
  | (c, b) :: rest, i => if c = i then some b else lookupClient rest i

/-- The `entry(client_id).and_modify(...).or_insert_with(...)` write-back:
replace the entry for `i` if present, otherwise append it. -/
def setClient : List (Nat × ClientBalance) → Nat → ClientBalance → List (Nat × ClientBalance)
  | [], i, b => [(i, b)]
  | (c, b') :: rest, i, b =>
    if c = i then (c, b) :: rest else (c, b') :: setClient rest i b

/-- `Accountant::update_client_balance`: dispatch on the transaction type;
dispute-family types look up the referenced transaction in the history and
use its amount, failing with `TxNotFound` when the id is absent.  The
returned balance carries every field write the dispatched method performed. -/
def update_client_balance (transactions : Nat → Option Transaction)
    (client : ClientBalance) (t : Transaction) : ClientBalance × Option LedgerError :=
  match t.type_ with
  | .Deposit => client.deposit t.amount
  | .Withdrawal => client.withdraw t.amount
  | .Dispute =>
    match transactions t.tx with
    | none => (client, some (.TxNotFound t.tx))
    | some prior => client.dispute prior.amount
  | .Resolve =>
    match transactions t.tx with
    | none => (client, some (.TxNotFound t.tx))
    | some prior => client.resolve prior.amount
  | .Chargeback =>
    match transactions t.tx with
    | none => (client, some (.TxNotFound t.tx))
    | some prior => client.chargeback prior.amount

/-- The deduplication/history phase of `Accountant::apply_bookkeeping`
(the `self.transactions.entry(transaction_id)` match): a vacant entry stores
the incoming transaction (and pushes the id onto the historical vector); an
occupied entry is fatal for `Deposit`/`Withdrawal` and a no-op otherwise. -/
def dedupStep (s : Accountant) (t : Transaction) : Except LedgerError Accountant :=
  match s.transactions t.tx with
  | none =>
    .ok { s with
          transactions := fun i => if i = t.tx then some t else s.transactions i
          transaction_in_historical := s.transaction_in_historical ++ [t.tx] }
  | some _ =>
    match t.type_ with
    | .Deposit => .error (.TxDuplicated t.tx)
    | .Withdrawal => .error (.TxDuplicated t.tx)
    | .Dispute => .ok s
    | .Resolve => .ok s
    | .Chargeback => .ok s

/-- The client the `entry(client_id).and_modify(...).or_insert_with(...)`
call of `apply_bookkeeping` operates on: the stored balance when the client
id is known, a fresh `ClientBalance::new(client_id)` otherwise. -/
def resolvedClient (s0 : Accountant) (t : Transaction) : ClientBalance :=
  (lookupClient s0.clients t.client).getD (ClientBalance.new t.client)

/-- The `update_client_balance` call of `apply_bookkeeping`, on the resolved
client and the post-dedup history. -/
def dispatchResult (s0 : Accountant) (t : Transaction) : ClientBalance × Option LedgerError :=
  update_client_balance s0.transactions (resolvedClient s0 t) t

/-- `Accountant::apply_bookkeeping`: after the dedup phase (and the
unconditional second push onto the historical vector), resolve the client
(creating a fresh `ClientBalance` on first sight) and apply
`update_client_balance`; on failure the (possibly partially written) balance
is still stored and the transaction id is appended to
`transactions_rejected`, and the function itself returns `ok`. -/
def apply_bookkeeping (s : Accountant) (t : Transaction) : Except LedgerError Accountant :=
  match dedupStep s t with
  | .error e => .error e
  | .ok s0 =>
    match dispatchResult s0 t with
    | (client', none) =>
      .ok { s0 with
            transaction_in_historical := s0.transaction_in_historical ++ [t.tx]
            clients := setClient s0.clients t.client client' }
    | (client', some _) =>
      .ok { s0 with
            transaction_in_historical := s0.transaction_in_historical ++ [t.tx]
            clients := setClient s0.clients t.client client'
            transactions_rejected := s0.transactions_rejected ++ [t.tx] }

/-- The loop of `Engine::run` (`src/ledger.rs`): apply each transaction in
input order, propagating any `apply_bookkeeping` error (which aborts the
run); CSV deserialization and the final export write are I/O adapters
outside this model. -/
def runTxs (s : Accountant) : List Transaction → Except LedgerError Accountant
  | [] => .ok s
  | t :: rest =>
    match apply_bookkeeping s t with
    | .error e => .error e
    | .ok s' => runTxs s' rest

/-- `Accountant::export`: one output record per entry of the `clients` map. -/
def exportBalances (s : Accountant) : List ClientBalance :=
  s.clients.map (fun p => p.2)

/-- Project the final clients map out of a run result (empty on abort). -/
def finalClients : Except LedgerError Accountant → List (Nat × ClientBalance)
  | .ok s => s.clients
  | .error _ => []

/-- Project the rejected-ids list out of a run result (empty on abort). -/
def finalRejected : Except LedgerError Accountant → List Nat
  | .ok s => s.transactions_rejected
  | .error _ => []

/-- Whether a run result is a success. -/
def runOk : Except LedgerError Accountant → Bool
  | .ok _ => true
  | .error _ => false

/-! ## Helper lemmas -/

theorem checked_add_some {a b c : Int} (h : checked_add a b = some c) : c = a + b := by
  unfold checked_add at h
  split at h
  · exact (Option.some.inj h).symm
  · exact absurd h (by simp)

theorem checked_sub_some {a b c : Int} (h : checked_sub a b = some c) : c = a - b := by
  unfold checked_sub at h
  split at h
  · exact (Option.some.inj h).symm
  · exact absurd h (by simp)

/-- The invariant of §8 of the spec: `total = available + held` and no
component negative. -/
def GoodBalance (b : ClientBalance) : Prop :=
  b.total = b.available + b.held ∧ 0 ≤ b.available ∧ 0 ≤ b.held ∧ 0 ≤ b.total

instance (b : ClientBalance) : Decidable (GoodBalance b) := by
  unfold GoodBalance
  infer_instance

theorem deposit_good {b b' : ClientBalance} {a : String}
    (hg : GoodBalance b) (hnn : ∀ q, parseDecimal a = some q → 0 ≤ q)
    (h : b.deposit a = (b', none)) : GoodBalance b' := by
  obtain ⟨hs, ha, hh, ht⟩ := hg
  unfold ClientBalance.deposit at h
  cases hv : b.validate_is_unlocked <;> simp only [hv] at h
  · cases hp : parseDecimal a <;> simp only [hp] at h
    · simp at h
    · rename_i q
      cases hav : checked_add b.available q <;> simp only [hav] at h
      · simp at h
      · rename_i av
        cases hat : checked_add b.total q <;> simp only [hat] at h
        · simp at h
        · rename_i t
          rw [Prod.mk.injEq] at h
          obtain ⟨h1, -⟩ := h
          subst h1
          have hq := hnn q hp
          have e1 := checked_add_some hav
          have e2 := checked_add_some hat
          show t = av + b.held ∧ 0 ≤ av ∧ 0 ≤ b.held ∧ 0 ≤ t
          omega
  · simp at h

theorem withdraw_good {b b' : ClientBalance} {a : String}
    (hg : GoodBalance b) (h : b.withdraw a = (b', none)) : GoodBalance b' := by
  obtain ⟨hs, ha, hh, ht⟩ := hg
  unfold ClientBalance.withdraw at h
  cases hv : b.validate_is_unlocked <;> simp only [hv] at h
  · cases hp : parseDecimal a <;> simp only [hp] at h
    · simp at h
    · rename_i q
      cases hav : checked_sub b.available q <;> simp only [hav] at h
      · simp at h
      · rename_i av
        cases hat : checked_sub b.total q <;> simp only [hat] at h
        · simp at h
        · rename_i t
          split at h
          · simp at h
          · split at h
            · simp at h
            · rename_i ht0 hav0
              rw [Prod.mk.injEq] at h
              obtain ⟨h1, -⟩ := h
              subst h1
              have e1 := checked_sub_some hav
              have e2 := checked_sub_some hat
              show t = av + b.held ∧ 0 ≤ av ∧ 0 ≤ b.held ∧ 0 ≤ t
              omega
  · simp at h

theorem dispute_good {b b' : ClientBalance} {a : String}
    (hg : GoodBalance b) (hnn : ∀ q, parseDecimal a = some q → 0 ≤ q)
    (h : b.dispute a = (b', none)) : GoodBalance b' := by
  obtain ⟨hs, ha, hh, ht⟩ := hg
  unfold ClientBalance.dispute at h
  cases hv : b.validate_is_unlocked <;> simp only [hv] at h
  · cases hp : parseDecimal a <;> simp only [hp] at h
    · simp at h
    · rename_i q
      cases hav : checked_sub b.available q <;> simp only [hav] at h
      · simp at h
      · rename_i av
        split at h
        · simp at h
        · rename_i hav0
          cases hah : checked_add b.held q <;> simp only [hah] at h
          · simp at h
          · rename_i h2
            rw [Prod.mk.injEq] at h
            obtain ⟨h1, -⟩ := h
            subst h1
            have hq := hnn q hp
            have e1 := checked_sub_some hav
            have e2 := checked_add_some hah
            show b.total = av + h2 ∧ 0 ≤ av ∧ 0 ≤ h2 ∧ 0 ≤ b.total
            omega
  · simp at h

theorem resolve_good {b b' : ClientBalance} {a : String}
    (hg : GoodBalance b) (hnn : ∀ q, parseDecimal a = some q → 0 ≤ q)
    (h : b.resolve a = (b', none)) : GoodBalance b' := by
  obtain ⟨hs, ha, hh, ht⟩ := hg
  unfold ClientBalance.resolve at h
  cases hv : b.validate_is_unlocked <;> simp only [hv] at h
  · cases hp : parseDecimal a <;> simp only [hp] at h
    · simp at h
    · rename_i q
      cases hah : checked_sub b.held q <;> simp only [hah] at h
      · simp at h
      · rename_i h2
        split at h
        · simp at h
        · rename_i hh0
          cases hav : checked_add b.available q <;> simp only [hav] at h
          · simp at h
          · rename_i av
            rw [Prod.mk.injEq] at h
            obtain ⟨h1, -⟩ := h
            subst h1
            have hq := hnn q hp
            have e1 := checked_sub_some hah
            have e2 := checked_add_some hav
            show b.total = av + h2 ∧ 0 ≤ av ∧ 0 ≤ h2 ∧ 0 ≤ b.total
            omega
  · simp at h

theorem chargeback_good {b b' : ClientBalance} {a : String}
    (hg : GoodBalance b) (h : b.chargeback a = (b', none)) : GoodBalance b' := by
  obtain ⟨hs, ha, hh, ht⟩ := hg
  unfold ClientBalance.chargeback at h
  cases hv : b.validate_is_unlocked <;> simp only [hv] at h
  · cases hp : parseDecimal a <;> simp only [hp] at h
    · simp at h
    · rename_i q
      cases hah : checked_sub b.held q <;> simp only [hah] at h
      · simp at h
      · rename_i h2
        cases hat : checked_sub b.total q <;> simp only [hat] at h
        · simp at h
        · rename_i t
          split at h
          · simp at h
          · split at h
            · simp at h
            · rename_i hh0 ht0
              rw [Prod.mk.injEq] at h
              obtain ⟨h1, -⟩ := h
              subst h1
              have e1 := checked_sub_some hah
              have e2 := checked_sub_some hat
              show t = b.available + h2 ∧ 0 ≤ b.available ∧ 0 ≤ h2 ∧ 0 ≤ t
              omega
  · simp at h

theorem applyOp_good {b b' : ClientBalance} {op : BalanceOp}
    (hg : GoodBalance b) (hnn : ∀ q, parseDecimal op.amount = some q → 0 ≤ q)
    (h : b.applyOp op = (b', none)) : GoodBalance b' := by
  cases op with
  | deposit a => exact deposit_good hg hnn h
  | withdraw a => exact withdraw_good hg h
  | dispute a => exact dispute_good hg hnn h
  | resolve a => exact resolve_good hg hnn h
  | chargeback a => exact chargeback_good hg h

theorem runOps_good : ∀ (ops : List BalanceOp) (b b' : ClientBalance),
    GoodBalance b → (∀ op ∈ ops, ∀ q, parseDecimal op.amount = some q → 0 ≤ q) →
    runOps b ops = some b' → GoodBalance b'
  | [], b, b', hg, _, h => by
    unfold runOps at h
    exact (Option.some.inj h) ▸ hg
  | op :: rest, b, b', hg, hnn, h => by
    unfold runOps at h
    cases hop : b.applyOp op with
    | mk b2 oe =>
      rw [hop] at h
      cases oe with
      | none =>
        exact runOps_good rest b2 b'
          (applyOp_good hg (hnn op (by simp)) hop)
          (fun o ho => hnn o (by simp [ho])) h
      | some e =>
        have h' : (none : Option ClientBalance) = some b' := h
        simp at h'

set_option maxRecDepth 8000

/-! ## Claim C1 -/

/-- **C1** (amended).  As stated, the claim is false: an operation carrying a
negative amount can succeed and leave a negative component (see the
counterexample below), and a failed overflowing operation in between can
break the sum invariant for later successes.  Amended: for every sequence of
the five balance operations whose amounts, when they parse, are nonnegative,
starting from `new c`, if every operation in the sequence succeeds, then
afterwards `total = available + held` and none of `available, held, total` is
negative (this applies to every prefix of the sequence as well, so the
invariant holds after each successful operation of an all-success run). -/
theorem balance_ops_invariant (c : Nat) (ops : List BalanceOp) (b' : ClientBalance)
    (hnn : ∀ op ∈ ops, ∀ q, parseDecimal op.amount = some q → 0 ≤ q)
    (hrun : runOps (ClientBalance.new c) ops = some b') : GoodBalance b' :=
  runOps_good ops (ClientBalance.new c) b'
    (by
      show (0 : Int) = 0 + 0 ∧ 0 ≤ (0 : Int) ∧ 0 ≤ (0 : Int) ∧ 0 ≤ (0 : Int)
      omega) hnn hrun

/-- **C1 counterexample**: from a fresh balance, `deposit("-5")` succeeds
(the whole one-operation run succeeds) yet leaves `available` and `total`
negative, so the claim as stated is false. -/
theorem balance_ops_invariant_cex :
    runOps (ClientBalance.new 1) [.deposit "-5"] =
      some { client := 1, available := -(5 * decUnit), held := 0,
             total := -(5 * decUnit), locked := false } ∧
    ¬ GoodBalance { client := 1, available := -(5 * decUnit), held := 0,
                    total := -(5 * decUnit), locked := false } := by
  constructor
  · decide
  · decide

/-- Witness for `balance_ops_invariant`: the run `deposit(150); dispute(50)`
succeeds and its final state satisfies the invariant. -/
theorem balance_ops_invariant_witness :
    GoodBalance { client := 1, available := 100 * decUnit, held := 50 * decUnit,
                  total := 150 * decUnit, locked := false } := by
  refine balance_ops_invariant 1 [.deposit "150", .dispute "50"] _ ?_ (by decide)
  intro op hop q hq
  simp only [List.mem_cons, List.not_mem_nil, or_false] at hop
  rcases hop with rfl | rfl
  · have h150 : parseDecimal (BalanceOp.amount (.deposit "150")) = some (150 * decUnit) := by
      decide
    rw [h150] at hq
    obtain rfl := Option.some.inj hq
    decide
  · have h50 : parseDecimal (BalanceOp.amount (.dispute "50")) = some (50 * decUnit) := by
      decide
    rw [h50] at hq
    obtain rfl := Option.some.inj hq
    decide

/-! ## Claim C2 -/

/-- **C2** (amended).  As stated, the claim is false: `deposit`, `dispute`
and `resolve` write one field before a second checked operation, so a
`ValueOverflow` failure can leave that write behind (see the counterexample
below).  Amended: whenever one of the five balance operations fails with any
error other than `ValueOverflow` (`ParseError`, `InsufficientFunds`,
`AccountLocked`), the balance is returned exactly as it was. -/
theorem failed_op_unchanged (b b' : ClientBalance) (op : BalanceOp) (e : LedgerError)
    (h : b.applyOp op = (b', some e)) (hne : e ≠ .ValueOverflow) : b' = b := by
  cases op with
  | deposit a =>
    unfold ClientBalance.applyOp ClientBalance.deposit at h
    cases hv : b.validate_is_unlocked <;> simp only [hv] at h
    · cases hp : parseDecimal a <;> simp only [hp] at h
      · simp_all
      · rename_i q
        cases hav : checked_add b.available q <;> simp only [hav] at h
        · simp_all
        · rename_i av
          cases hat : checked_add b.total q <;> simp only [hat] at h
          · rw [Prod.mk.injEq] at h
            exact absurd (Option.some.inj h.2).symm hne
          · simp_all
    · simp_all
  | withdraw a =>
    unfold ClientBalance.applyOp ClientBalance.withdraw at h
    cases hv : b.validate_is_unlocked <;> simp only [hv] at h
    · cases hp : parseDecimal a <;> simp only [hp] at h
      · simp_all
      · rename_i q
        cases hav : checked_sub b.available q <;> simp only [hav] at h
        · simp_all
        · rename_i av
          cases hat : checked_sub b.total q <;> simp only [hat] at h
          · simp_all
          · rename_i t
            split at h
            · simp_all
            · split at h
              · simp_all
              · simp_all
    · simp_all
  | dispute a =>
    unfold ClientBalance.applyOp ClientBalance.dispute at h
    cases hv : b.validate_is_unlocked <;> simp only [hv] at h
    · cases hp : parseDecimal a <;> simp only [hp] at h
      · simp_all
      · rename_i q
        cases hav : checked_sub b.available q <;> simp only [hav] at h
        · simp_all
        · rename_i av
          split at h
          · simp_all
          · cases hah : checked_add b.held q <;> simp only [hah] at h
            · rw [Prod.mk.injEq] at h
              exact absurd (Option.some.inj h.2).symm hne
            · simp_all
    · simp_all
  | resolve a =>
    unfold ClientBalance.applyOp ClientBalance.resolve at h
    cases hv : b.validate_is_unlocked <;> simp only [hv] at h
    · cases hp : parseDecimal a <;> simp only [hp] at h
      · simp_all
      · rename_i q
        cases hah : checked_sub b.held q <;> simp only [hah] at h
        · simp_all
        · rename_i h2
          split at h
          · simp_all
          · cases hav : checked_add b.available q <;> simp only [hav] at h
            · rw [Prod.mk.injEq] at h
              exact absurd (Option.some.inj h.2).symm hne
            · simp_all
    · simp_all
  | chargeback a =>
    unfold ClientBalance.applyOp ClientBalance.chargeback at h
    cases hv : b.validate_is_unlocked <;> simp only [hv] at h
    · cases hp : parseDecimal a <;> simp only [hp] at h
      · simp_all
      · rename_i q
        cases hah : checked_sub b.held q <;> simp only [hah] at h
        · simp_all
        · rename_i h2
          cases hat : checked_sub b.total q <;> simp only [hat] at h
          · simp_all
          · rename_i t
            split at h
            · simp_all
            · split at h
              · simp_all
              · simp_all
    · simp_all

/-- **C2 counterexample**: a `dispute("1")` on a balance with `held` at
`Decimal::MAX` passes the available check, writes the new `available`, and
then fails with `ValueOverflow` on the held addition — the failed call
returns a mutated balance. -/
theorem failed_op_unchanged_cex :
    ((⟨1, decUnit, decMax, 0, false⟩ : ClientBalance).dispute "1").2 =
      some .ValueOverflow ∧
    ((⟨1, decUnit, decMax, 0, false⟩ : ClientBalance).dispute "1").1 ≠
      ⟨1, decUnit, decMax, 0, false⟩ := by
  constructor
  · decide
  · decide

/-- Witness for `failed_op_unchanged`: a withdrawal from an empty balance
fails with `InsufficientFunds` and returns the balance unchanged. -/
theorem failed_op_unchanged_witness :
    ((ClientBalance.new 3).applyOp (.withdraw "5")).1 = ClientBalance.new 3 :=
  failed_op_unchanged (ClientBalance.new 3)
    ((ClientBalance.new 3).applyOp (.withdraw "5")).1 (.withdraw "5")
    (.InsufficientFunds (5 * decUnit) (-(5 * decUnit))) (by decide) (by decide)

/-! ## Claim C3 -/

/-- **C3** (confirmed).  On a locked balance every one of the five operations,
whatever its amount string, fails with `AccountLocked(client)` and returns
the balance exactly as it was — in particular `locked` stays `true`, so the
locked state is terminal. -/
theorem locked_account_terminal (b : ClientBalance) (op : BalanceOp)
    (h : b.locked = true) :
    b.applyOp op = (b, some (.AccountLocked b.client)) := by
  have hv : b.validate_is_unlocked = some (.AccountLocked b.client) := by
    unfold ClientBalance.validate_is_unlocked
    rw [h]
    simp
  cases op <;>
    simp only [ClientBalance.applyOp, ClientBalance.deposit, ClientBalance.withdraw,
      ClientBalance.dispute, ClientBalance.resolve, ClientBalance.chargeback, hv]

/-- Witness for `locked_account_terminal` at a concrete locked balance. -/
theorem locked_account_terminal_witness :
    (⟨7, decUnit, 0, decUnit, true⟩ : ClientBalance).applyOp (.deposit "5") =
      (⟨7, decUnit, 0, decUnit, true⟩, some (.AccountLocked 7)) :=
  locked_account_terminal ⟨7, decUnit, 0, decUnit, true⟩ (.deposit "5") rfl

/-! ## Engine-level helper lemmas -/

theorem dedupStep_ok_fields {s s0 : Accountant} {t : Transaction}
    (h : dedupStep s t = .ok s0) :
    s0.clients = s.clients ∧ s0.transactions_rejected = s.transactions_rejected := by
  unfold dedupStep at h
  cases hx : s.transactions t.tx <;> simp only [hx] at h
  · obtain rfl := Except.ok.inj h
    exact ⟨rfl, rfl⟩
  · cases ht : t.type_ <;> simp only [ht] at h
    · exact absurd h (by simp)
    · exact absurd h (by simp)
    · obtain rfl := Except.ok.inj h
      exact ⟨rfl, rfl⟩
    · obtain rfl := Except.ok.inj h
      exact ⟨rfl, rfl⟩
    · obtain rfl := Except.ok.inj h
      exact ⟨rfl, rfl⟩

theorem dedupStep_ok_cases {s s0 : Accountant} {t : Transaction}
    (h : dedupStep s t = .ok s0) :
    (s.transactions t.tx = none ∧
      s0.transactions = fun i => if i = t.tx then some t else s.transactions i) ∨
    (s0 = s ∧ (s.transactions t.tx).isSome = true) := by
  unfold dedupStep at h
  cases hx : s.transactions t.tx <;> simp only [hx] at h
  · left
    obtain rfl := Except.ok.inj h
    exact ⟨rfl, rfl⟩
  · right
    cases ht : t.type_ <;> simp only [ht] at h
    · exact absurd h (by simp)
    · exact absurd h (by simp)
    · exact ⟨(Except.ok.inj h).symm, by simp⟩
    · exact ⟨(Except.ok.inj h).symm, by simp⟩
    · exact ⟨(Except.ok.inj h).symm, by simp⟩

theorem dedupStep_error_iff {s : Accountant} {t : Transaction} {e : LedgerError} :
    dedupStep s t = .error e ↔
      e = .TxDuplicated t.tx ∧ (s.transactions t.tx).isSome = true ∧
        (t.type_ = .Deposit ∨ t.type_ = .Withdrawal) := by
  unfold dedupStep
  cases hx : s.transactions t.tx <;> cases ht : t.type_ <;> simp [eq_comm]

theorem apply_bookkeeping_fatal {s : Accountant} {t : Transaction} {e : LedgerError}
    (hd : dedupStep s t = .error e) : apply_bookkeeping s t = .error e := by
  unfold apply_bookkeeping
  rw [hd]

theorem apply_bookkeeping_reject {s s0 : Accountant} {t : Transaction} {e : LedgerError}
    (hd : dedupStep s t = .ok s0) (he : (dispatchResult s0 t).2 = some e) :
    apply_bookkeeping s t = .ok
      { s0 with
        transaction_in_historical := s0.transaction_in_historical ++ [t.tx]
        clients := setClient s0.clients t.client (dispatchResult s0 t).1
        transactions_rejected := s0.transactions_rejected ++ [t.tx] } := by
  unfold apply_bookkeeping
  rw [hd]
  cases hu : dispatchResult s0 t with
  | mk client' oe =>
    cases oe with
    | none => rw [hu] at he; simp at he
    | some e2 => simp only [hu]

theorem apply_bookkeeping_success {s s0 : Accountant} {t : Transaction}
    (hd : dedupStep s t = .ok s0) (he : (dispatchResult s0 t).2 = none) :
    apply_bookkeeping s t = .ok
      { s0 with
        transaction_in_historical := s0.transaction_in_historical ++ [t.tx]
        clients := setClient s0.clients t.client (dispatchResult s0 t).1 } := by
  unfold apply_bookkeeping
  rw [hd]
  cases hu : dispatchResult s0 t with
  | mk client' oe =>
    cases oe with
    | none => simp only [hu]
    | some e2 => rw [hu] at he; simp at he

theorem apply_bookkeeping_ok_shape {s s' : Accountant} {t : Transaction}
    (h : apply_bookkeeping s t = .ok s') :
    ∃ s0, dedupStep s t = .ok s0 ∧
      s'.transactions = s0.transactions ∧
      s'.clients = setClient s0.clients t.client (dispatchResult s0 t).1 ∧
      ((dispatchResult s0 t).2 = none ∧
          s'.transactions_rejected = s0.transactions_rejected ∨
        (∃ e, (dispatchResult s0 t).2 = some e) ∧
          s'.transactions_rejected = s0.transactions_rejected ++ [t.tx]) := by
  unfold apply_bookkeeping at h
  cases hd : dedupStep s t with
  | error e =>
    simp only [hd] at h
    exact absurd h (by simp)
  | ok s0 =>
    simp only [hd] at h
    cases hu : dispatchResult s0 t with
    | mk client' oe =>
      simp only [hu] at h
      cases oe with
      | none =>
        obtain rfl := (Except.ok.inj h).symm
        exact ⟨s0, rfl, rfl, by simp [hu], Or.inl ⟨by simp [hu], rfl⟩⟩
      | some e2 =>
        obtain rfl := (Except.ok.inj h).symm
        exact ⟨s0, rfl, rfl, by simp [hu], Or.inr ⟨⟨e2, by simp [hu]⟩, rfl⟩⟩

theorem apply_bookkeeping_error_iff {s : Accountant} {t : Transaction} {e : LedgerError} :
    apply_bookkeeping s t = .error e ↔ dedupStep s t = .error e := by
  constructor
  · intro h
    unfold apply_bookkeeping at h
    cases hd : dedupStep s t with
    | error e2 =>
      simp only [hd] at h
      obtain rfl := Except.error.inj h
      rfl
    | ok s0 =>
      simp only [hd] at h
      cases hu : dispatchResult s0 t with
      | mk client' oe =>
        simp only [hu] at h
        cases oe <;> simp at h
  · exact apply_bookkeeping_fatal

theorem runTxs_cons_ok {s s' : Accountant} {t : Transaction} {rest : List Transaction}
    (h : apply_bookkeeping s t = .ok s') : runTxs s (t :: rest) = runTxs s' rest := by
  conv_lhs => unfold runTxs
  rw [h]

theorem runTxs_cons_error {s : Accountant} {t : Transaction} {rest : List Transaction}
    {e : LedgerError} (h : apply_bookkeeping s t = .error e) :
    runTxs s (t :: rest) = .error e := by
  conv_lhs => unfold runTxs
  rw [h]

theorem lookup_setClient_self (l : List (Nat × ClientBalance)) (i : Nat) (b : ClientBalance) :
    lookupClient (setClient l i b) i = some b := by
  induction l with
  | nil => simp [setClient, lookupClient]
  | cons p rest ih =>
    unfold setClient
    by_cases hp : p.1 = i
    · rw [if_pos hp]
      unfold lookupClient
      rw [if_pos hp]
    · rw [if_neg hp]
      unfold lookupClient
      rw [if_neg hp]
      exact ih

theorem lookupClient_mem_map {l : List (Nat × ClientBalance)} {i : Nat} {b : ClientBalance}
    (h : lookupClient l i = some b) : b ∈ l.map (fun p => p.2) := by
  induction l with
  | nil => simp [lookupClient] at h
  | cons p rest ih =>
    unfold lookupClient at h
    by_cases hp : p.1 = i
    · rw [if_pos hp] at h
      obtain rfl := Option.some.inj h
      simp
    · rw [if_neg hp] at h
      simp only [List.map_cons, List.mem_cons]
      exact Or.inr (ih h)

/-! ## Claim C4 -/

/-- The error kinds §7 of the spec classifies as recoverable business-rule
rejections. -/
def LedgerError.isRecoverable : LedgerError → Bool
  | .InsufficientFunds _ _ => true
  | .AccountLocked _ => true
  | .TxNotFound _ => true
  | .TxDuplicated _ => false
  | .ValueOverflow => false
  | .ParseError => false

/-- **C4** (confirmed).  When the dedup phase passes and the dispatched
balance operation fails with a business-rule error (`InsufficientFunds`,
`AccountLocked`) or a dispute-reference lookup failure (`TxNotFound`),
`apply_bookkeeping` still returns `ok`, the transaction id is appended to
`transactions_rejected`, and the run loop continues with the next
transaction. -/
theorem rejected_not_fatal (s s0 : Accountant) (t : Transaction) (e : LedgerError)
    (hd : dedupStep s t = .ok s0)
    (he : (dispatchResult s0 t).2 = some e)
    (_hkind : e.isRecoverable = true) :
    ∃ s', apply_bookkeeping s t = .ok s' ∧
      s'.transactions_rejected = s.transactions_rejected ++ [t.tx] ∧
      ∀ rest, runTxs s (t :: rest) = runTxs s' rest := by
  have happ := apply_bookkeeping_reject hd he
  refine ⟨_, happ, ?_, fun rest => runTxs_cons_ok happ⟩
  show s0.transactions_rejected ++ [t.tx] = s.transactions_rejected ++ [t.tx]
  rw [(dedupStep_ok_fields hd).2]

/-- Witness for `rejected_not_fatal`: an uncovered withdrawal on a fresh
engine is rejected and the run goes on. -/
theorem rejected_not_fatal_witness :
    ∃ s', apply_bookkeeping Accountant.new ⟨1, 1, "5", .Withdrawal⟩ = .ok s' ∧
      s'.transactions_rejected = Accountant.new.transactions_rejected ++ [1] ∧
      ∀ rest, runTxs Accountant.new (⟨1, 1, "5", .Withdrawal⟩ :: rest) = runTxs s' rest :=
  rejected_not_fatal Accountant.new _ ⟨1, 1, "5", .Withdrawal⟩
    (.InsufficientFunds (5 * decUnit) (-(5 * decUnit))) rfl (by decide) (by decide)

/-! ## Claim C5 -/

/-- **C5** (confirmed).  `apply_bookkeeping` fails — necessarily with
`TxDuplicated(t.tx)` — exactly when the incoming id is already in the history
and the incoming type is `Deposit` or `Withdrawal`; a dispute-family
transaction over a known id is never rejected at this step, and any such
failure aborts the run loop. -/
theorem tx_duplicated_iff (s : Accountant) (t : Transaction) :
    (∀ e, apply_bookkeeping s t = .error e ↔
      (e = .TxDuplicated t.tx ∧ (s.transactions t.tx).isSome = true ∧
        (t.type_ = .Deposit ∨ t.type_ = .Withdrawal))) ∧
    (∀ e rest, apply_bookkeeping s t = .error e → runTxs s (t :: rest) = .error e) := by
  constructor
  · intro e
    rw [apply_bookkeeping_error_iff]
    exact dedupStep_error_iff
  · intro e rest h
    exact runTxs_cons_error h

def dupTx : Transaction := ⟨1, 1, "5", .Deposit⟩

/-- An engine state whose history already contains id 1. -/
def dupState : Accountant :=
  { clients := []
    transactions := fun i => if i = 1 then some dupTx else none
    transaction_in_historical := [1]
    transactions_rejected := [] }

/-- Witness for `tx_duplicated_iff`: a repeated deposit id is fatal and
aborts the run. -/
theorem tx_duplicated_iff_witness :
    apply_bookkeeping dupState dupTx = .error (.TxDuplicated 1) ∧
    runTxs dupState [dupTx] = .error (.TxDuplicated 1) := by
  have h := tx_duplicated_iff dupState dupTx
  have h1 : apply_bookkeeping dupState dupTx = .error (.TxDuplicated 1) :=
    (h.1 (.TxDuplicated 1)).2 ⟨rfl, by decide, Or.inl rfl⟩
  exact ⟨h1, h.2 (.TxDuplicated 1) [] h1⟩

/-! ## Claim C6 -/

/-- The balance method selected by a transaction type, applied with a given
amount string (for stating which amount a dispatched operation receives). -/
def applyByType (ty : TransactionType) (client : ClientBalance) (amount : String) :
    ClientBalance × Option LedgerError :=
  match ty with
  | .Deposit => client.deposit amount
  | .Withdrawal => client.withdraw amount
  | .Dispute => client.dispute amount
  | .Resolve => client.resolve amount
  | .Chargeback => client.chargeback amount

/-- **C6** (amended).  At the `update_client_balance` level the claim holds:
a dispute-family transaction whose id is absent from the history it is given
fails with `TxNotFound(id)`, and otherwise the balance operation is applied
with the amount of the transaction stored in the history under that id —
never the own amount field of the dispute-family record.  However (third
conjunct), within `apply_bookkeeping` the dedup phase inserts a
never-before-seen record into the history before dispatch, so there the
lookup always succeeds and `TxNotFound` is unreachable (see the
counterexample). -/
theorem dispute_family_referenced_amount (tm : Nat → Option Transaction)
    (client : ClientBalance) (t : Transaction)
    (hdf : t.type_.isDisputeFamily = true) :
    (tm t.tx = none →
      update_client_balance tm client t = (client, some (.TxNotFound t.tx))) ∧
    (∀ prior, tm t.tx = some prior →
      update_client_balance tm client t = applyByType t.type_ client prior.amount) ∧
    (∀ s s0, dedupStep s t = .ok s0 → (s0.transactions t.tx).isSome = true) := by
  refine ⟨?_, ?_, ?_⟩
  · intro hx
    unfold update_client_balance
    cases ht : t.type_ <;>
      simp only [ht, TransactionType.isDisputeFamily, Bool.false_eq_true] at hdf ⊢ <;>
      simp [hx]
  · intro prior hx
    unfold update_client_balance applyByType
    cases ht : t.type_ <;>
      simp only [ht, TransactionType.isDisputeFamily, Bool.false_eq_true] at hdf ⊢ <;>
      simp [hx]
  · intro s s0 hd
    rcases dedupStep_ok_cases hd with ⟨-, hfun⟩ | ⟨rfl, hsome⟩
    · rw [hfun]
      simp
    · exact hsome

def c6Tx : Transaction := ⟨7, 1, "", .Dispute⟩

/-- The state the dedup phase produces from a fresh engine on `c6Tx`: the
dispute record itself is now in the history. -/
def c6Mid : Accountant :=
  { clients := []
    transactions := fun i => if i = 7 then some c6Tx else none
    transaction_in_historical := [7]
    transactions_rejected := [] }

/-- **C6 counterexample**: a dispute whose id was never seen is *not* failed
with `TxNotFound` by `apply_bookkeeping`: the dedup phase has just inserted
the dispute record itself, the lookup finds it, and the operation fails on
parsing its empty amount (`ParseError`), ending up rejected. -/
theorem dispute_family_referenced_amount_cex :
    Accountant.new.transactions 7 = none ∧
    dedupStep Accountant.new c6Tx = .ok c6Mid ∧
    (dispatchResult c6Mid c6Tx).2 = some .ParseError ∧
    LedgerError.ParseError ≠ LedgerError.TxNotFound 7 ∧
    apply_bookkeeping Accountant.new c6Tx =
      .ok { clients := [(1, ClientBalance.new 1)]
            transactions := c6Mid.transactions
            transaction_in_historical := [7, 7]
            transactions_rejected := [7] } := by
  refine ⟨rfl, rfl, by decide, by decide, rfl⟩

/-- Witness for `dispute_family_referenced_amount`: with an empty history a
dispute on id 7 fails with `TxNotFound 7`. -/
theorem dispute_family_referenced_amount_witness :
    update_client_balance (fun _ => none) (ClientBalance.new 1) c6Tx =
      (ClientBalance.new 1, some (.TxNotFound 7)) :=
  (dispute_family_referenced_amount (fun _ => none) (ClientBalance.new 1) c6Tx rfl).1 rfl

/-! ## Claim C7 -/

theorem deposit_parse_fail {b : ClientBalance} {a : String}
    (hp : parseDecimal a = none) : ∃ e, (b.deposit a).2 = some e := by
  unfold ClientBalance.deposit
  cases hv : b.validate_is_unlocked <;> simp only [hv, hp]
  · exact ⟨.ParseError, rfl⟩
  · exact ⟨_, rfl⟩

theorem withdraw_parse_fail {b : ClientBalance} {a : String}
    (hp : parseDecimal a = none) : ∃ e, (b.withdraw a).2 = some e := by
  unfold ClientBalance.withdraw
  cases hv : b.validate_is_unlocked <;> simp only [hv, hp]
  · exact ⟨.ParseError, rfl⟩
  · exact ⟨_, rfl⟩

/-- **C7** (amended).  As stated, the claim is false: an unparseable amount
string does not abort the run (see the counterexample) because the parse
happens inside `deposit`/`withdraw`, whose errors `apply_bookkeeping`
swallows.  Amended: a deposit or withdrawal whose amount text does not parse
is recorded as rejected and processing continues; only structural CSV
deserialization failures (outside this model) and `TxDuplicated` abort the
run. -/
theorem malformed_amount_rejected (s s0 : Accountant) (t : Transaction)
    (hd : dedupStep s t = .ok s0)
    (hty : t.type_ = .Deposit ∨ t.type_ = .Withdrawal)
    (hp : parseDecimal t.amount = none) :
    ∃ s', apply_bookkeeping s t = .ok s' ∧
      s'.transactions_rejected = s.transactions_rejected ++ [t.tx] ∧
      ∀ rest, runTxs s (t :: rest) = runTxs s' rest := by
  have hfail : ∃ e, (dispatchResult s0 t).2 = some e := by
    unfold dispatchResult update_client_balance
    rcases hty with hty | hty <;> simp only [hty]
    · exact deposit_parse_fail hp
    · exact withdraw_parse_fail hp
  obtain ⟨e, he⟩ := hfail
  have happ := apply_bookkeeping_reject hd he
  refine ⟨_, happ, ?_, fun rest => runTxs_cons_ok happ⟩
  show s0.transactions_rejected ++ [t.tx] = s.transactions_rejected ++ [t.tx]
  rw [(dedupStep_ok_fields hd).2]

def badTx : Transaction := ⟨1, 1, "abc", .Deposit⟩

/-- **C7 counterexample**: a deposit with amount text `"abc"` does not abort
the run — the run over just that transaction completes with `ok` and the
transaction is merely recorded as rejected. -/
theorem malformed_amount_rejected_cex :
    runOk (runTxs Accountant.new [badTx]) = true ∧
    finalRejected (runTxs Accountant.new [badTx]) = [1] := by
  exact ⟨by decide, by decide⟩

/-- Witness for `malformed_amount_rejected` on a fresh engine. -/
theorem malformed_amount_rejected_witness :
    ∃ s', apply_bookkeeping Accountant.new badTx = .ok s' ∧
      s'.transactions_rejected = Accountant.new.transactions_rejected ++ [1] ∧
      ∀ rest, runTxs Accountant.new (badTx :: rest) = runTxs s' rest :=
  malformed_amount_rejected Accountant.new _ badTx rfl (Or.inl rfl) (by decide)

/-! ## Claim C8 -/

def c8Deposit : Transaction := ⟨1, 1, "150", .Deposit⟩

def c8Dispute : Transaction := ⟨1, 1, "", .Dispute⟩

/-- **C8** (amended).  A deposit of 150 followed by a dispute referencing it
holds the *full amount of the referenced deposit*: the final balance is
`available = 0, held = 150, total = 150` (not 100/50/150; those numbers in the spec
come from the balance-level unit test of the repository, which disputes 50
directly rather than referencing the deposit). -/
theorem scenario3_engine :
    lookupClient (finalClients (runTxs Accountant.new [c8Deposit, c8Dispute])) 1 =
      some ⟨1, 0, 150 * decUnit, 150 * decUnit, false⟩ := by
  decide

/-- **C8 counterexample**: the engine-level run yields (0, 150, 150), not the
claimed (100, 50, 150). -/
theorem scenario3_engine_cex :
    lookupClient (finalClients (runTxs Accountant.new [c8Deposit, c8Dispute])) 1 ≠
      some ⟨1, 100 * decUnit, 50 * decUnit, 150 * decUnit, false⟩ := by
  decide

/-! ## Claim C9 -/

/-- **C9** (confirmed).  The history maps each id to the first transaction
ever seen with it: an existing entry is never overwritten, a vacant entry is
filled with the incoming transaction of *any* type (dispute-family included),
and once an id is present an incoming deposit or withdrawal with that id
fails fatally with `TxDuplicated`. -/
theorem history_first_wins (s : Accountant) (t : Transaction) :
    (∀ i tr s', s.transactions i = some tr → apply_bookkeeping s t = .ok s' →
        s'.transactions i = some tr) ∧
    (∀ s', s.transactions t.tx = none → apply_bookkeeping s t = .ok s' →
        s'.transactions t.tx = some t) ∧
    (∀ tr, s.transactions t.tx = some tr →
        (t.type_ = .Deposit ∨ t.type_ = .Withdrawal) →
        apply_bookkeeping s t = .error (.TxDuplicated t.tx)) := by
  refine ⟨?_, ?_, ?_⟩
  · intro i tr s' hi happ
    obtain ⟨s0, hd, htr, -, -⟩ := apply_bookkeeping_ok_shape happ
    rw [htr]
    rcases dedupStep_ok_cases hd with ⟨hnone, hfun⟩ | ⟨rfl, -⟩
    · rw [hfun]
      by_cases hieq : i = t.tx
      · rw [hieq] at hi
        rw [hi] at hnone
        exact absurd hnone (by simp)
      · simp only [if_neg hieq]
        exact hi
    · exact hi
  · intro s' hnone happ
    obtain ⟨s0, hd, htr, -, -⟩ := apply_bookkeeping_ok_shape happ
    rw [htr]
    rcases dedupStep_ok_cases hd with ⟨-, hfun⟩ | ⟨rfl, hsome⟩
    · rw [hfun]
      simp
    · rw [hnone] at hsome
      exact absurd hsome (by simp)
  · intro tr hsome hty
    apply apply_bookkeeping_fatal
    exact dedupStep_error_iff.2 ⟨rfl, by simp [hsome], hty⟩

def c9History : Transaction := ⟨7, 2, "", .Dispute⟩

/-- An engine state whose history holds a dispute-family record under id 7
(as the dedup phase produces when a dispute arrives with a fresh id). -/
def c9State : Accountant :=
  { clients := []
    transactions := fun i => if i = 7 then some c9History else none
    transaction_in_historical := [7]
    transactions_rejected := [] }

/-- Witness for `history_first_wins`: a deposit re-using the id of a stored
dispute-family record fails fatally with `TxDuplicated`. -/
theorem history_first_wins_witness :
    apply_bookkeeping c9State ⟨7, 2, "10", .Deposit⟩ = .error (.TxDuplicated 7) :=
  (history_first_wins c9State ⟨7, 2, "10", .Deposit⟩).2.2 c9History rfl (Or.inl rfl)

/-! ## Claim C10 -/

theorem checked_sub_zero_add {q av : Int} (h : checked_sub 0 q = some av) :
    checked_add 0 q = some (0 + q) := by
  unfold checked_sub at h
  unfold checked_add
  split at h
  · rename_i hc
    split
    · rfl
    · rename_i hc2
      omega
  · exact absurd h (by simp)

theorem deposit_new_err {c : Nat} {a : String} {b' : ClientBalance} {e : LedgerError}
    (h : (ClientBalance.new c).deposit a = (b', some e)) : b' = ClientBalance.new c := by
  unfold ClientBalance.deposit at h
  cases hv : (ClientBalance.new c).validate_is_unlocked <;> simp only [hv] at h
  · cases hp : parseDecimal a <;> simp only [hp] at h
    · rw [Prod.mk.injEq] at h
      exact h.1.symm
    · rename_i q
      cases ha1 : checked_add (ClientBalance.new c).available q <;> simp only [ha1] at h
      · rw [Prod.mk.injEq] at h
        exact h.1.symm
      · rename_i av
        cases ha2 : checked_add (ClientBalance.new c).total q <;> simp only [ha2] at h
        · have e1 : checked_add 0 q = some av := ha1
          have e2 : checked_add 0 q = none := ha2
          rw [e1] at e2
          exact absurd e2 (by simp)
        · simp at h
  · rw [Prod.mk.injEq] at h
    exact h.1.symm

theorem withdraw_new_err {c : Nat} {a : String} {b' : ClientBalance} {e : LedgerError}
    (h : (ClientBalance.new c).withdraw a = (b', some e)) : b' = ClientBalance.new c := by
  unfold ClientBalance.withdraw at h
  cases hv : (ClientBalance.new c).validate_is_unlocked <;> simp only [hv] at h
  · cases hp : parseDecimal a <;> simp only [hp] at h
    · rw [Prod.mk.injEq] at h
      exact h.1.symm
    · rename_i q
      cases hs1 : checked_sub (ClientBalance.new c).available q <;> simp only [hs1] at h
      · rw [Prod.mk.injEq] at h
        exact h.1.symm
      · rename_i av
        cases hs2 : checked_sub (ClientBalance.new c).total q <;> simp only [hs2] at h
        · rw [Prod.mk.injEq] at h
          exact h.1.symm
        · rename_i t
          split at h
          · rw [Prod.mk.injEq] at h
            exact h.1.symm
          · split at h
            · rw [Prod.mk.injEq] at h
              exact h.1.symm
            · simp at h
  · rw [Prod.mk.injEq] at h
    exact h.1.symm

theorem dispute_new_err {c : Nat} {a : String} {b' : ClientBalance} {e : LedgerError}
    (h : (ClientBalance.new c).dispute a = (b', some e)) : b' = ClientBalance.new c := by
  unfold ClientBalance.dispute at h
  cases hv : (ClientBalance.new c).validate_is_unlocked <;> simp only [hv] at h
  · cases hp : parseDecimal a <;> simp only [hp] at h
    · rw [Prod.mk.injEq] at h
      exact h.1.symm
    · rename_i q
      cases hs1 : checked_sub (ClientBalance.new c).available q <;> simp only [hs1] at h
      · rw [Prod.mk.injEq] at h
        exact h.1.symm
      · rename_i av
        split at h
        · rw [Prod.mk.injEq] at h
          exact h.1.symm
        · cases ha : checked_add (ClientBalance.new c).held q <;> simp only [ha] at h
          · have e1 : checked_sub 0 q = some av := hs1
            have e2 : checked_add 0 q = none := ha
            rw [checked_sub_zero_add e1] at e2
            exact absurd e2 (by simp)
          · simp at h
  · rw [Prod.mk.injEq] at h
    exact h.1.symm

theorem resolve_new_err {c : Nat} {a : String} {b' : ClientBalance} {e : LedgerError}
    (h : (ClientBalance.new c).resolve a = (b', some e)) : b' = ClientBalance.new c := by
  unfold ClientBalance.resolve at h
  cases hv : (ClientBalance.new c).validate_is_unlocked <;> simp only [hv] at h
  · cases hp : parseDecimal a <;> simp only [hp] at h
    · rw [Prod.mk.injEq] at h
      exact h.1.symm
    · rename_i q
      cases hs1 : checked_sub (ClientBalance.new c).held q <;> simp only [hs1] at h
      · rw [Prod.mk.injEq] at h
        exact h.1.symm
      · rename_i h2
        split at h
        · rw [Prod.mk.injEq] at h
          exact h.1.symm
        · cases ha : checked_add (ClientBalance.new c).available q <;> simp only [ha] at h
          · have e1 : checked_sub 0 q = some h2 := hs1
            have e2 : checked_add 0 q = none := ha
            rw [checked_sub_zero_add e1] at e2
            exact absurd e2 (by simp)
          · simp at h
  · rw [Prod.mk.injEq] at h
    exact h.1.symm

theorem chargeback_new_err {c : Nat} {a : String} {b' : ClientBalance} {e : LedgerError}
    (h : (ClientBalance.new c).chargeback a = (b', some e)) : b' = ClientBalance.new c := by
  unfold ClientBalance.chargeback at h
  cases hv : (ClientBalance.new c).validate_is_unlocked <;> simp only [hv] at h
  · cases hp : parseDecimal a <;> simp only [hp] at h
    · rw [Prod.mk.injEq] at h
      exact h.1.symm
    · rename_i q
      cases hs1 : checked_sub (ClientBalance.new c).held q <;> simp only [hs1] at h
      · rw [Prod.mk.injEq] at h
        exact h.1.symm
      · rename_i h2
        cases hs2 : checked_sub (ClientBalance.new c).total q <;> simp only [hs2] at h
        · rw [Prod.mk.injEq] at h
          exact h.1.symm
        · rename_i t
          split at h
          · rw [Prod.mk.injEq] at h
            exact h.1.symm
          · split at h
            · rw [Prod.mk.injEq] at h
              exact h.1.symm
            · simp at h
  · rw [Prod.mk.injEq] at h
    exact h.1.symm

/-- A failed operation on a freshly created client leaves it exactly
`ClientBalance.new`: every failure path from the all-zero state occurs before
any field write. -/
theorem update_new_err {tm : Nat → Option Transaction} {cid : Nat} {t : Transaction}
    {b' : ClientBalance} {e : LedgerError}
    (h : update_client_balance tm (ClientBalance.new cid) t = (b', some e)) :
    b' = ClientBalance.new cid := by
  unfold update_client_balance at h
  cases ht : t.type_ <;> simp only [ht] at h
  · exact deposit_new_err h
  · exact withdraw_new_err h
  · cases hx : tm t.tx <;> simp only [hx] at h
    · rw [Prod.mk.injEq] at h
      exact h.1.symm
    · exact dispute_new_err h
  · cases hx : tm t.tx <;> simp only [hx] at h
    · rw [Prod.mk.injEq] at h
      exact h.1.symm
    · exact resolve_new_err h
  · cases hx : tm t.tx <;> simp only [hx] at h
    · rw [Prod.mk.injEq] at h
      exact h.1.symm
    · exact chargeback_new_err h

/-- **C10** (confirmed).  After a successful `apply_bookkeeping`, the clients
map contains an entry for the client of the transaction even when the transaction
was rejected; and a first-seen client whose transaction was rejected is
stored as the all-zero, unlocked `ClientBalance.new`, which then appears in
the exported snapshot. -/
theorem client_exists_after_apply (s s' : Accountant) (t : Transaction)
    (h : apply_bookkeeping s t = .ok s') :
    (lookupClient s'.clients t.client).isSome = true ∧
    (lookupClient s.clients t.client = none →
      s'.transactions_rejected ≠ s.transactions_rejected →
      lookupClient s'.clients t.client = some (ClientBalance.new t.client) ∧
      ClientBalance.new t.client ∈ exportBalances s') := by
  obtain ⟨s0, hd, -, hcl, hrej⟩ := apply_bookkeeping_ok_shape h
  have hc0 := (dedupStep_ok_fields hd).1
  have hr0 := (dedupStep_ok_fields hd).2
  constructor
  · rw [hcl, lookup_setClient_self]
    rfl
  · intro habs hne
    have hfail : ∃ e, (dispatchResult s0 t).2 = some e := by
      rcases hrej with ⟨-, hsame⟩ | ⟨hf, -⟩
      · exact absurd (by rw [hsame, hr0]) hne
      · exact hf
    obtain ⟨e, he⟩ := hfail
    have hres : resolvedClient s0 t = ClientBalance.new t.client := by
      unfold resolvedClient
      rw [hc0, habs]
      rfl
    have hone : (dispatchResult s0 t).1 = ClientBalance.new t.client := by
      unfold dispatchResult at he ⊢
      rw [hres] at he ⊢
      cases hu : update_client_balance s0.transactions (ClientBalance.new t.client) t with
      | mk bb oo =>
        rw [hu] at he
        cases oo with
        | none => simp at he
        | some e2 => simpa using update_new_err hu
    have hlook : lookupClient s'.clients t.client = some (ClientBalance.new t.client) := by
      rw [hcl, hone, lookup_setClient_self]
    exact ⟨hlook, lookupClient_mem_map hlook⟩

def w10Tx : Transaction := ⟨1, 1, "5", .Withdrawal⟩

/-- The state `apply_bookkeeping` produces from a fresh engine on `w10Tx`:
the withdrawal is rejected, yet client 1 exists as an all-zero record. -/
def w10State : Accountant :=
  { clients := [(1, ClientBalance.new 1)]
    transactions := fun i => if i = 1 then some w10Tx else none
    transaction_in_historical := [1, 1]
    transactions_rejected := [1] }

/-- Witness for `client_exists_after_apply`: the rejected withdrawal leaves
client 1 in the map and in the export as `ClientBalance.new 1`. -/
theorem client_exists_after_apply_witness :
    lookupClient w10State.clients 1 = some (ClientBalance.new 1) ∧
    ClientBalance.new 1 ∈ exportBalances w10State := by
  have h := client_exists_after_apply Accountant.new w10State w10Tx rfl
  exact h.2 rfl (by decide)

end PlayCsv
